import Mathlib

/-!
# bahamut: push server configuration, connection waiter and API route installation

A shallow embedding of three files of the Go package `bahamut`:

* `push_server_config.go`: `NewPushServerConfig`, `makeProducer`, `makeConsumer`, `String`;
* `pubsub.go`: `connectionWaiter.Wait`;
* `api_server.go`: `isTLSEnabled`, `installRoutes`.

Go panics are modelled by `Except.error` carrying the panic value, nil interface
results by `Option.none`, and goroutine interaction by an explicit step function
over a state holding the two channels of the waiter.
-/

namespace Bahamut

/-! ## fmt.Sprintf, restricted to the verbs used by this package -/

/-- Operand handed to `fmt.Sprintf`: a Go `string` or a Go `[]string`. -/
inductive Arg where
  | str (s : String)
  | strs (xs : List String)
  deriving Repr, DecidableEq

/-- Elements of a slice as `fmt` prints them: a space is written before every
element but the first (`if i > 0 { p.buf.writeByte(' ') }`). -/
def printElems : Nat → List String → List Char
  | _, [] => []
  | i, x :: xs => (if 0 < i then [' '] else []) ++ x.data ++ printElems (i + 1) xs

/-- Output of the verbs `%v` and `%s` for one operand: a string is written as
it is, a slice of strings as `[e0 e1 ...]`. -/
def printArg : Arg → List Char
  | .str s => s.data
  | .strs xs => ['['] ++ printElems 0 xs ++ [']']

/-- The formatting loop of `fmt.Sprintf` for the verbs `%v` and `%s` and the
escape `%%`; a verb with no operand left prints `%!v(MISSING)` as Go does.
Other verbs are outside this model and are copied through. -/
def doPrintf : List Char → List Arg → List Char
  | [], _ => []
  | [c], _ => [c]
  | c :: v :: rest, args =>
    if c = '%' then
      if v = 'v' ∨ v = 's' then
        match args with
        | a :: args' => printArg a ++ doPrintf rest args'
        | [] => ['%', '!', v] ++ "(MISSING)".data ++ doPrintf rest []
      else if v = '%' then '%' :: doPrintf rest args
      else c :: v :: doPrintf rest args
    else c :: doPrintf (v :: rest) args

/-- Go `fmt.Sprintf(format, args...)`. -/
def Sprintf (format : String) (args : List Arg) : String :=
  String.mk (doPrintf format.data args)

/-! ## push_server_config.go -/

/-- PushServerConfig represents the connection information of the push server.
`Authorizer` and `Authenticator` are interface values; `none` is the nil
interface, `some n` stands for an implementation identified by `n`. -/
structure PushServerConfig where
  Addresses : List String
  DefaultTopic : String
  Authorizer : Option Nat := none
  Authenticator : Option Nat := none
  deriving Repr, DecidableEq

/-- NewPushServerConfig returns a new configuration; `Except.error msg` is
`panic(msg)`. -/
def NewPushServerConfig (addresses : List String) (defaultTopic : String) :
    Except String PushServerConfig :=
  if addresses.length < 1 then
    .error "at least one address should be provided to PushServerConfig"
  else if defaultTopic = "" then
    .error "a valid default topic should be provided to PushServerConfig"
  else
    .ok { Addresses := addresses, DefaultTopic := defaultTopic }

/-- One entry written through logrus at error level: the message and the two
fields `info` (the configuration) and `error` (the cause). -/
structure LogEntry (E : Type) where
  message : String
  info : PushServerConfig
  error : E

/-- makeProducer builds the producer from the configured addresses. The sarama
constructor `sarama.NewSyncProducer(addrs, nil)` is the parameter
`newSyncProducer`; the result is the returned client (`none` is nil) together
with the log entries written. -/
def PushServerConfig.makeProducer {P E : Type}
    (newSyncProducer : List String → Except E P) (k : PushServerConfig) :
    Option P × List (LogEntry E) :=
  match newSyncProducer k.Addresses with
  | .error err =>
    (none, [{ message := "unable to create kafka producer", info := k, error := err }])
  | .ok producer => (some producer, [])

/-- makeConsumer builds the consumer from the configured addresses. The sarama
constructor `sarama.NewConsumer(addrs, nil)` is the parameter `newConsumer`. -/
def PushServerConfig.makeConsumer {C E : Type}
    (newConsumer : List String → Except E C) (k : PushServerConfig) :
    Option C × List (LogEntry E) :=
  match newConsumer k.Addresses with
  | .error err =>
    (none, [{ message := "unable to create kafka consumer", info := k, error := err }])
  | .ok consumer => (some consumer, [])

/-- String returns the printable form of the configuration. -/
def PushServerConfig.String (k : PushServerConfig) : String :=
  Sprintf "<PushServerConfig Addresses: %v DefaultTopic: %s>"
    [.strs k.Addresses, .str k.DefaultTopic]

/-! ## Go channels of `bool`, as the waiter uses them -/

/-- A Go `chan bool` seen from the goroutine that runs `Wait`: the capacity
given to `make`, the buffered values (oldest first), the values offered by
other goroutines parked in a send, the number of other goroutines parked in a
receive, and whether the channel has been closed. -/
structure Chan where
  cap : Nat
  buf : List Bool := []
  sendq : List Bool := []
  recvq : Nat := 0
  closed : Bool := false
  deriving Repr, DecidableEq

/-- Outcome of attempting a send. -/
inductive SendResult where
  | sent (c : Chan)
  | blocked
  | panic
  deriving Repr, DecidableEq

/-- Receive attempt `<-c`: the value received and the channel afterwards, or
`none` when the receive cannot proceed yet. A buffered value is taken first
(and a parked sender then moves its value into the buffer); with an empty
buffer a parked sender hands its value over directly; a closed and drained
channel yields the zero value `false`. -/
def Chan.recv (c : Chan) : Option (Bool × Chan) :=
  match c.buf, c.sendq with
  | v :: rest, [] => some (v, { c with buf := rest })
  | v :: rest, s :: waiting => some (v, { c with buf := rest ++ [s], sendq := waiting })
  | [], s :: waiting => some (s, { c with sendq := waiting })
  | [], [] => if c.closed then some (false, c) else none

/-- Send attempt `c <- v`: a send on a closed channel panics; a parked receiver
takes the value directly; otherwise the value is buffered when there is room;
otherwise the send cannot proceed yet. -/
def Chan.send (c : Chan) (v : Bool) : SendResult :=
  if c.closed then .panic
  else if 0 < c.recvq then .sent { c with recvq := c.recvq - 1 }
  else if c.buf.length < c.cap then .sent { c with buf := c.buf ++ [v] }
  else .blocked

/-! ## pubsub.go -/

/-- A connectionWaiter is the Waiter for the PubSub Server connection. -/
structure connectionWaiter where
  ok : Chan
  abort : Chan
  deriving Repr, DecidableEq

/-- Control point of the goroutine executing `Wait`. -/
inductive PC where
  | atSelect
  | atSend
  | returned (status : Bool)
  | panicked
  deriving Repr, DecidableEq

/-- State of one call of `Wait`: the two channels, the clock, the instant at
which the channel of `time.After(timeout)` becomes ready, the control point and
the values this call has sent on `abort` so far. -/
structure WaitState where
  ok : Chan
  abort : Chan
  now : Nat
  deadline : Nat
  pc : PC
  abortSent : List Bool
  deriving Repr, DecidableEq

/-- Entry of `w.Wait(timeout)` at instant `now`: `time.After(timeout)` is armed
(a non-positive duration fires at once) and the call stands at its `select`. -/
def connectionWaiter.Wait (w : connectionWaiter) (now : Nat) (timeout : Int) : WaitState :=
  { ok := w.ok, abort := w.abort, now := now, deadline := now + timeout.toNat,
    pc := .atSelect, abortSent := [] }

/-- One scheduling of the goroutine executing `Wait`.
At the `select`: when only `ok` is ready its value is returned, when only the
timer is ready the second case is entered, when both are ready Go picks one of
them (`pickOk`), when none is ready the goroutine stays parked.
In the second case `w.abort <- true` is attempted and, once it went through,
`false` is returned. -/
def Wait.step (pickOk : Bool) (s : WaitState) : WaitState :=
  match s.pc with
  | .atSelect =>
    match s.ok.recv, decide (s.deadline ≤ s.now) with
    | some (status, ok'), false => { s with ok := ok', pc := .returned status }
    | some (status, ok'), true =>
      if pickOk then { s with ok := ok', pc := .returned status } else { s with pc := .atSend }
    | none, true => { s with pc := .atSend }
    | none, false => s
  | .atSend =>
    match s.abort.send true with
    | .sent abort' =>
      { s with abort := abort', abortSent := s.abortSent ++ [true], pc := .returned false }
    | .blocked => s
    | .panic => { s with pc := .panicked }
  | .returned _ => s
  | .panicked => s

/-- What can happen between two states: time passes, another goroutine sends
on `ok` or starts a receive on `abort`, or the goroutine of `Wait` runs. -/
inductive Event where
  | tick
  | sendOk (b : Bool)
  | recvAbort
  | wait (pickOk : Bool)
  deriving Repr, DecidableEq

/-- Another goroutine executes `c <- b`: the send goes through when it can, and
the value is parked in the send queue otherwise (a send on a closed channel
panics in that goroutine and leaves the channel as it is). -/
def Chan.otherSend (c : Chan) (b : Bool) : Chan :=
  match c.send b with
  | .sent c' => c'
  | .blocked => { c with sendq := c.sendq ++ [b] }
  | .panic => c

/-- Another goroutine executes `<-c`: it receives when it can and parks in the
receive queue otherwise. -/
def Chan.otherRecv (c : Chan) : Chan :=
  match c.recv with
  | some (_, c') => c'
  | none => { c with recvq := c.recvq + 1 }

/-- Effect of one event. -/
def next (e : Event) (s : WaitState) : WaitState :=
  match e with
  | .tick => { s with now := s.now + 1 }
  | .sendOk b => { s with ok := s.ok.otherSend b }
  | .recvAbort => { s with abort := s.abort.otherRecv }
  | .wait pickOk => Wait.step pickOk s

/-- Effect of a schedule, first event first. -/
def run (es : List Event) (s : WaitState) : WaitState :=
  es.foldl (fun st e => next e st) s

/-- Whether the schedule lets some goroutine receive on `abort`. -/
def Event.isRecvAbort : Event → Bool
  | .recvAbort => true
  | _ => false

/-- What a call of `Wait` has sent on `abort`: nothing, or the single value
`true` followed by the return of `false`. -/
def sentAtMostOnce (s : WaitState) : Prop :=
  s.abortSent = [] ∨ (s.pc = .returned false ∧ s.abortSent = [true])

instance : DecidablePred sentAtMostOnce := fun s => by
  unfold sentAtMostOnce
  infer_instance

/-- Whether every evaluation of the select of `Wait` made along the schedule
found no value available on `ok`. -/
def okEmptyAtSelects : List Event → WaitState → Bool
  | [], _ => true
  | .wait pickOk :: es, s => s.ok.recv.isNone && okEmptyAtSelects es (next (.wait pickOk) s)
  | .tick :: es, s => okEmptyAtSelects es (next .tick s)
  | .sendOk b :: es, s => okEmptyAtSelects es (next (.sendOk b) s)
  | .recvAbort :: es, s => okEmptyAtSelects es (next .recvAbort s)

/-! ## api_server.go -/

/-- The `http.HandlerFunc` values that occur: the handlers of this file, the
five `pprof` handlers and the handlers supplied through the configuration. -/
inductive Handler where
  | corsHandler
  | notFoundHandler
  | pprofIndex
  | pprofCmdline
  | pprofProfile
  | pprofSymbol
  | pprofTrace
  | user (id : Nat)
  deriving Repr, DecidableEq

/-- A route of the configuration. Its declaration is outside the files read
here; the fields are the ones `installRoutes` reads. -/
structure Route where
  Method : String
  Pattern : String
  Handler : Handler
  deriving Repr, DecidableEq

/-- The configuration of the API server. Its declaration is outside the files
read here; the fields are the ones `api_server.go` reads. -/
structure APIServerConfig where
  ListenAddress : String := ""
  Routes : List Route := []
  EnableProfiling : Bool := false
  TLSCAPath : String := ""
  TLSCertificatePath : String := ""
  TLSKeyPath : String := ""
  HealthHandler : Option Handler := none
  HealthEndpoint : String := ""
  HealthListenAddress : String := ""
  deriving Repr, DecidableEq

/-- A registration call received by the `bone.Mux`: `register m p h` is
`Head/Get/Post/Put/Delete/Patch/Options(p, h)` with `m` the method of the call,
`handle p h` is `Handle(p, h)` (every method), `notFound h` is `NotFound(h)`. -/
inductive MuxCall where
  | register (method : String) (pattern : String) (h : Handler)
  | handle (pattern : String) (h : Handler)
  | notFound (h : Handler)
  deriving Repr, DecidableEq

/-- The multiplexer, as the sequence of registrations it received, oldest
first. -/
structure Mux where
  calls : List MuxCall := []
  deriving Repr, DecidableEq

/-- Whether handler `h` is registered for `pattern` under `method`. -/
def Mux.registered (m : Mux) (method pattern : String) (h : Handler) : Bool :=
  m.calls.contains (.register method pattern h) || m.calls.contains (.handle pattern h)

/-- An apiServer is the structure serving the api routes. -/
structure apiServer where
  config : APIServerConfig
  address : String := ""
  multiplexer : Mux := {}
  deriving Repr, DecidableEq

/-- A logrus entry of `installRoutes`. -/
structure RouteLog where
  level : String
  message : String
  pattern : String := ""
  method : String := ""
  deriving Repr, DecidableEq

def MethodGet : String := "GET"
def MethodHead : String := "HEAD"
def MethodPost : String := "POST"
def MethodPut : String := "PUT"
def MethodPatch : String := "PATCH"
def MethodDelete : String := "DELETE"
def MethodOptions : String := "OPTIONS"

/-- isTLSEnabled checks if the current configuration contains sufficient
information to establish a TLS connection. -/
def apiServer.isTLSEnabled (a : apiServer) : Bool :=
  a.config.TLSCAPath != "" && a.config.TLSCertificatePath != "" && a.config.TLSKeyPath != ""

/-- Body of the loop of `installRoutes` for one route: the registration calls
it makes on the multiplexer. -/
def installRoute (route : Route) : List MuxCall :=
  if route.Method = MethodHead then [.register MethodHead route.Pattern route.Handler]
  else if route.Method = MethodGet then [.register MethodGet route.Pattern route.Handler]
  else if route.Method = MethodPost then [.register MethodPost route.Pattern route.Handler]
  else if route.Method = MethodPut then [.register MethodPut route.Pattern route.Handler]
  else if route.Method = MethodDelete then [.register MethodDelete route.Pattern route.Handler]
  else if route.Method = MethodPatch then [.register MethodPatch route.Pattern route.Handler]
  else []

/-- The loop of `installRoutes` over the configured routes: the multiplexer
and the log afterwards. -/
def installLoop : List Route → Mux × List RouteLog → Mux × List RouteLog
  | [], acc => acc
  | route :: rest, (m, log) =>
    installLoop rest
      ({ m with calls := m.calls ++ installRoute route },
       log ++ [{ level := "debug", message := "API route installed.",
                 pattern := route.Pattern, method := route.Method }])

/-- installRoutes installs the routes declared in the APIServerConfig, then
the CORS handlers, the not-found handler and, when profiling is enabled, the
profiling handlers. Returns the server with its multiplexer updated and the
log entries written. -/
def apiServer.installRoutes (a : apiServer) : apiServer × List RouteLog :=
  let (m1, log1) := installLoop a.config.Routes (a.multiplexer, [])
  let m2 : Mux := { m1 with calls := m1.calls ++
    [.register MethodOptions "*" .corsHandler,
     .register MethodGet "/" .corsHandler,
     .notFound .notFoundHandler] }
  let (m3, log3) : Mux × List RouteLog :=
    if a.config.EnableProfiling then
      ({ m2 with calls := m2.calls ++
          [.handle "/debug/pprof/" .pprofIndex,
           .handle "/debug/pprof/cmdline" .pprofCmdline,
           .handle "/debug/pprof/profile" .pprofProfile,
           .handle "/debug/pprof/symbol" .pprofSymbol,
           .handle "/debug/pprof/trace" .pprofTrace] },
       log1 ++ [{ level := "warning", message := "Profiling routes installed." }])
    else (m2, log1)
  ({ a with multiplexer := m3 }, log3 ++ [{ level := "info", message := "All routes installed." }])

/-! ## Concrete inputs used in the statements below -/

/-- A producer constructor that reaches its broker. -/
def producerUp : List String → Except String Nat := fun _ => .ok 1

/-- A consumer constructor that finds nothing listening. -/
def consumerDown : List String → Except String Nat :=
  fun _ => .error "kafka: client has run out of available brokers to talk to"

/-- A constructor that succeeds exactly when one of the addresses is
`listening`, and then returns client `7`. -/
def dial (listening : String) : List String → Except String Nat :=
  fun addrs =>
    if addrs.contains listening then .ok 7
    else .error "kafka: client has run out of available brokers to talk to"

/-- The configuration with the single address `addr` and the topic `topic`. -/
def configAt (addr : String) : PushServerConfig :=
  { Addresses := [addr], DefaultTopic := "topic" }

/-- A server whose configuration declares one `GET` route and one `OPTIONS`
route. -/
def serverWithOptionsRoute : apiServer :=
  { config := { Routes := [⟨"GET", "/things", .user 0⟩, ⟨"OPTIONS", "/things", .user 1⟩] } }

/-- A waiter whose two channels are unbuffered with no goroutine parked on
them: `connectionWaiter{ok: make(chan bool), abort: make(chan bool)}`. -/
def unbufferedWaiter : connectionWaiter :=
  { ok := { cap := 0 }, abort := { cap := 0 } }

/-- A waiter whose channels were made with room for one value each. -/
def bufferedWaiter : connectionWaiter :=
  { ok := { cap := 1 }, abort := { cap := 1 } }

/-- A waiter whose background attempt has already put its outcome `true` on
`ok`: both channels made with room for one value, `ok` holding `true`. -/
def resolvedWaiter : connectionWaiter :=
  { ok := { cap := 1, buf := [true] }, abort := { cap := 1 } }

/-! ## Formatting lemmas -/

theorem intercalate_go_data (sep : String) (xs : List String) (acc : String) :
    (String.intercalate.go acc sep xs).data
      = acc.data ++ (xs.map (fun x => sep.data ++ x.data)).flatten := by
  induction xs generalizing acc with
  | nil => simp [String.intercalate.go]
  | cons x xs ih => simp [String.intercalate.go, ih, List.append_assoc]

theorem printElems_succ (i : Nat) (xs : List String) :
    printElems (i + 1) xs = (xs.map (fun x => " ".data ++ x.data)).flatten := by
  induction xs generalizing i with
  | nil => simp [printElems]
  | cons x xs ih => simp [printElems, ih]

theorem printElems_zero (xs : List String) :
    printElems 0 xs = (" ".intercalate xs).data := by
  cases xs with
  | nil => simp [printElems, String.intercalate]
  | cons x xs =>
    simp [printElems, String.intercalate, intercalate_go_data, printElems_succ]

theorem String_eq (k : PushServerConfig) :
    k.String = "<PushServerConfig Addresses: [" ++ " ".intercalate k.Addresses
      ++ "] DefaultTopic: " ++ k.DefaultTopic ++ ">" := by
  apply String.ext
  simp [PushServerConfig.String, Sprintf, doPrintf, printArg, printElems_zero]

/-! ## NewPushServerConfig -/

/-- C1: `NewPushServerConfig addresses defaultTopic` panics if and only if the
address list is empty or the topic is the empty string, and returns a
configuration if and only if the list is non-empty and the topic is
non-empty. -/
theorem NewPushServerConfig_panics_iff (addresses : List String) (defaultTopic : String) :
    ((∃ msg, NewPushServerConfig addresses defaultTopic = .error msg)
        ↔ (addresses = [] ∨ defaultTopic = "")) ∧
    ((∃ k, NewPushServerConfig addresses defaultTopic = .ok k)
        ↔ (addresses ≠ [] ∧ defaultTopic ≠ "")) := by
  cases addresses with
  | nil => simp [NewPushServerConfig]
  | cons a rest =>
    by_cases ht : defaultTopic = ""
    · simp [NewPushServerConfig, ht]
    · simp [NewPushServerConfig, ht]

/-- C2: for a non-empty address list and a non-empty topic the configuration
returned by `NewPushServerConfig` carries exactly that list (same length, same
elements, same order) and exactly that topic. -/
theorem NewPushServerConfig_fields (addresses : List String) (defaultTopic : String)
    (haddr : addresses ≠ []) (htopic : defaultTopic ≠ "") :
    ∃ k, NewPushServerConfig addresses defaultTopic = .ok k
      ∧ k.Addresses = addresses
      ∧ k.Addresses.length = addresses.length
      ∧ (∀ i, k.Addresses.get? i = addresses.get? i)
      ∧ k.DefaultTopic = defaultTopic := by
  cases addresses with
  | nil => exact absurd rfl haddr
  | cons a rest =>
    refine ⟨{ Addresses := a :: rest, DefaultTopic := defaultTopic }, ?_, rfl, rfl, ?_, rfl⟩
    · simp [NewPushServerConfig, htopic]
    · intro i; rfl

/-- C2, witness: the configuration built from `[":1234"]` and `"topic"` has exactly one
address, `":1234"`, and the topic `"topic"`. -/
theorem NewPushServerConfig_fields_witness :
    ∃ k, NewPushServerConfig [":1234"] "topic" = .ok k
      ∧ k.Addresses.length = 1 ∧ k.Addresses.get? 0 = some ":1234"
      ∧ k.DefaultTopic = "topic" := by
  obtain ⟨k, hk, haddr, _, _, htopic⟩ :=
    NewPushServerConfig_fields [":1234"] "topic" (by decide) (by decide)
  exact ⟨k, hk, by simp [haddr], by simp [haddr], htopic⟩

/-! ## makeProducer and makeConsumer -/

/-- C5: for every configuration and every behaviour of the two sarama
constructors, `makeProducer` (resp. `makeConsumer`) returns nil exactly when
the constructor returns an error, returns the constructed client when it
succeeds, and on failure writes one log entry carrying the configuration and
the cause; the result is always a client or nil, never a panic or an error. -/
theorem makeProducer_makeConsumer_degrade {P C E : Type}
    (newSyncProducer : List String → Except E P) (newConsumer : List String → Except E C)
    (k : PushServerConfig) :
    (((k.makeProducer newSyncProducer).1 = none ↔ ∃ err, newSyncProducer k.Addresses = .error err)
      ∧ (∀ p, newSyncProducer k.Addresses = .ok p → k.makeProducer newSyncProducer = (some p, []))
      ∧ (∀ err, newSyncProducer k.Addresses = .error err →
          k.makeProducer newSyncProducer
            = (none, [{ message := "unable to create kafka producer", info := k, error := err }])))
    ∧ (((k.makeConsumer newConsumer).1 = none ↔ ∃ err, newConsumer k.Addresses = .error err)
      ∧ (∀ c, newConsumer k.Addresses = .ok c → k.makeConsumer newConsumer = (some c, []))
      ∧ (∀ err, newConsumer k.Addresses = .error err →
          k.makeConsumer newConsumer
            = (none, [{ message := "unable to create kafka consumer", info := k, error := err }]))) := by
  refine ⟨⟨?_, ?_, ?_⟩, ⟨?_, ?_, ?_⟩⟩
  · unfold PushServerConfig.makeProducer
    cases h : newSyncProducer k.Addresses <;> simp
  · intro p hp
    simp [PushServerConfig.makeProducer, hp]
  · intro err herr
    simp [PushServerConfig.makeProducer, herr]
  · unfold PushServerConfig.makeConsumer
    cases h : newConsumer k.Addresses <;> simp
  · intro c hc
    simp [PushServerConfig.makeConsumer, hc]
  · intro err herr
    simp [PushServerConfig.makeConsumer, herr]

/-- C5, witness: with the addresses `[":1234"]` and nothing listening there, both factory
methods return nil; with a broker listening on the configured address both
return a client. -/
theorem makeProducer_makeConsumer_degrade_witness :
    ((configAt ":1234").makeProducer (dial "127.0.0.1:9092")).1 = none
    ∧ ((configAt ":1234").makeConsumer (dial "127.0.0.1:9092")).1 = none
    ∧ ((configAt "127.0.0.1:9092").makeProducer (dial "127.0.0.1:9092")).1 = some 7
    ∧ ((configAt "127.0.0.1:9092").makeConsumer (dial "127.0.0.1:9092")).1 = some 7 := by
  have h1 := makeProducer_makeConsumer_degrade (dial "127.0.0.1:9092") (dial "127.0.0.1:9092")
    (configAt ":1234")
  have h2 := makeProducer_makeConsumer_degrade (dial "127.0.0.1:9092") (dial "127.0.0.1:9092")
    (configAt "127.0.0.1:9092")
  refine ⟨h1.1.1.mpr ⟨"kafka: client has run out of available brokers to talk to", rfl⟩,
    h1.2.1.mpr ⟨"kafka: client has run out of available brokers to talk to", rfl⟩, ?_, ?_⟩
  · rw [h2.1.2.1 7 rfl]
  · rw [h2.2.2.1 7 rfl]

/-- C8, counterexample: when the producer construction succeeds and the
consumer construction fails, `makeProducer` returns a client and `makeConsumer`
returns nil, so the pair is neither both present nor both absent. -/
theorem client_set_half_connected :
    ((configAt ":1234").makeProducer producerUp).1 = some 1
    ∧ ((configAt ":1234").makeConsumer consumerDown).1 = none
    ∧ ¬ ((((configAt ":1234").makeProducer producerUp).1.isSome
            ∧ ((configAt ":1234").makeConsumer consumerDown).1.isSome)
          ∨ (((configAt ":1234").makeProducer producerUp).1 = none
            ∧ ((configAt ":1234").makeConsumer consumerDown).1 = none)) := by
  decide

/-- C8, amended: the clients returned by `makeProducer` and `makeConsumer` are
both present or both absent exactly when the two underlying constructions
both succeed or both fail; each result follows its own construction only. -/
theorem client_set_follows_constructions {P C E : Type}
    (newSyncProducer : List String → Except E P) (newConsumer : List String → Except E C)
    (k : PushServerConfig) :
    ((((k.makeProducer newSyncProducer).1.isSome ∧ (k.makeConsumer newConsumer).1.isSome)
        ∨ ((k.makeProducer newSyncProducer).1 = none ∧ (k.makeConsumer newConsumer).1 = none))
      ↔ (((∃ p, newSyncProducer k.Addresses = .ok p) ∧ (∃ c, newConsumer k.Addresses = .ok c))
        ∨ ((∃ e, newSyncProducer k.Addresses = .error e)
            ∧ (∃ e, newConsumer k.Addresses = .error e)))) := by
  unfold PushServerConfig.makeProducer PushServerConfig.makeConsumer
  cases hp : newSyncProducer k.Addresses <;> cases hc : newConsumer k.Addresses <;> simp

/-! ## String -/

/-- C6, at the failing input: for the addresses `127.0.0.1:1234`,
`127.0.0.1:1235` and the topic `topic`, `String()` returns
`<PushServerConfig Addresses: [127.0.0.1:1234 127.0.0.1:1235] DefaultTopic: topic>`,
which is not the `<kafkaInfo addresses: ... topic: ...>` text. -/
theorem String_not_kafkaInfo :
    ∃ k, NewPushServerConfig ["127.0.0.1:1234", "127.0.0.1:1235"] "topic" = .ok k
      ∧ k.String
          = "<PushServerConfig Addresses: [127.0.0.1:1234 127.0.0.1:1235] DefaultTopic: topic>"
      ∧ k.String ≠ "<kafkaInfo addresses: [127.0.0.1:1234 127.0.0.1:1235] topic: topic>" := by
  refine ⟨{ Addresses := ["127.0.0.1:1234", "127.0.0.1:1235"], DefaultTopic := "topic" },
    rfl, by decide, by decide⟩

/-- What `String()` returns: for every configuration built from a non-empty
address list and a non-empty topic, the literal
`<PushServerConfig Addresses: `, the addresses separated by single spaces inside
square brackets, the literal ` DefaultTopic: `, the topic, and `>`. -/
theorem String_format (addresses : List String) (defaultTopic : String)
    (haddr : addresses ≠ []) (htopic : defaultTopic ≠ "") :
    ∃ k, NewPushServerConfig addresses defaultTopic = .ok k
      ∧ k.String = "<PushServerConfig Addresses: [" ++ " ".intercalate addresses
          ++ "] DefaultTopic: " ++ defaultTopic ++ ">" := by
  cases addresses with
  | nil => exact absurd rfl haddr
  | cons a rest =>
    refine ⟨{ Addresses := a :: rest, DefaultTopic := defaultTopic }, ?_, ?_⟩
    · simp [NewPushServerConfig, htopic]
    · exact String_eq _

/-- The two-address configuration of the test prints as
`<PushServerConfig Addresses: [127.0.0.1:1234 127.0.0.1:1235] DefaultTopic: topic>`. -/
theorem String_format_witness :
    ∃ k, NewPushServerConfig ["127.0.0.1:1234", "127.0.0.1:1235"] "topic" = .ok k
      ∧ k.String
          = "<PushServerConfig Addresses: [127.0.0.1:1234 127.0.0.1:1235] DefaultTopic: topic>" := by
  obtain ⟨k, hk, hs⟩ :=
    String_format ["127.0.0.1:1234", "127.0.0.1:1235"] "topic" (by decide) (by decide)
  refine ⟨k, hk, ?_⟩
  rw [hs]
  decide

/-! ## isTLSEnabled and installRoutes -/

/-- C10: `isTLSEnabled` returns true if and only if `TLSCAPath`,
`TLSCertificatePath` and `TLSKeyPath` are all three non-empty; it returns false
as soon as one of them is empty; and two servers whose configurations agree on
these three fields get the same answer, whatever their other fields hold. -/
theorem isTLSEnabled_iff (a : apiServer) :
    (a.isTLSEnabled = true
        ↔ (a.config.TLSCAPath ≠ "" ∧ a.config.TLSCertificatePath ≠ ""
            ∧ a.config.TLSKeyPath ≠ ""))
    ∧ ((a.config.TLSCAPath = "" ∨ a.config.TLSCertificatePath = "" ∨ a.config.TLSKeyPath = "")
        → a.isTLSEnabled = false)
    ∧ (∀ b : apiServer,
        b.config.TLSCAPath = a.config.TLSCAPath
          → b.config.TLSCertificatePath = a.config.TLSCertificatePath
          → b.config.TLSKeyPath = a.config.TLSKeyPath
          → b.isTLSEnabled = a.isTLSEnabled) := by
  refine ⟨?_, ?_, ?_⟩
  · simp [apiServer.isTLSEnabled, and_assoc]
  · intro h
    rcases h with h | h | h <;> simp [apiServer.isTLSEnabled, h]
  · intro b h1 h2 h3
    simp [apiServer.isTLSEnabled, h1, h2, h3]

/-- The multiplexer after the loop holds the calls it held before followed by
the calls of every route, in order. -/
theorem installLoop_calls (routes : List Route) (m : Mux) (log : List RouteLog) :
    (installLoop routes (m, log)).1.calls = m.calls ++ (routes.map installRoute).flatten := by
  induction routes generalizing m log with
  | nil => simp [installLoop]
  | cons r rest ih => simp [installLoop, ih, List.append_assoc]

/-- The log after the loop holds one "API route installed." entry for every
route, whatever its method. -/
theorem installLoop_log (routes : List Route) (m : Mux) (log : List RouteLog) :
    (installLoop routes (m, log)).2 = log ++ routes.map (fun r =>
      { level := "debug", message := "API route installed.",
        pattern := r.Pattern, method := r.Method }) := by
  induction routes generalizing m log with
  | nil => simp [installLoop]
  | cons r rest ih => simp [installLoop, ih, List.append_assoc]

/-- A route whose method is one of `HEAD`, `GET`, `POST`, `PUT`, `DELETE`,
`PATCH` is registered by `installRoutes` under its method. -/
theorem installRoutes_registers_known (a : apiServer) (r : Route) (hr : r ∈ a.config.Routes)
    (hm : r.Method = MethodHead ∨ r.Method = MethodGet ∨ r.Method = MethodPost
      ∨ r.Method = MethodPut ∨ r.Method = MethodDelete ∨ r.Method = MethodPatch) :
    a.installRoutes.1.multiplexer.registered r.Method r.Pattern r.Handler = true := by
  have hcall : MuxCall.register r.Method r.Pattern r.Handler ∈ installRoute r := by
    rcases hm with h | h | h | h | h | h <;>
      simp [installRoute, h, MethodHead, MethodGet, MethodPost, MethodPut, MethodDelete,
        MethodPatch]
  have hloop : MuxCall.register r.Method r.Pattern r.Handler
      ∈ (installLoop a.config.Routes (a.multiplexer, [])).1.calls := by
    rw [installLoop_calls]
    apply List.mem_append_right
    rw [List.mem_flatten]
    exact ⟨installRoute r, List.mem_map.mpr ⟨r, hr, rfl⟩, hcall⟩
  unfold apiServer.installRoutes Mux.registered
  by_cases hp : a.config.EnableProfiling <;> simp [hp, hloop]

/-- C9, at the failing input: a server whose configuration declares a `GET`
route and an `OPTIONS` route on `/things`. After `installRoutes` the `GET`
route is registered, the handler of the `OPTIONS` route is not registered for
`/things` under `OPTIONS`, and the log nevertheless holds an
"API route installed." entry for it. -/
theorem installRoutes_skips_options :
    serverWithOptionsRoute.installRoutes.1.multiplexer.registered "GET" "/things" (.user 0) = true
    ∧ serverWithOptionsRoute.installRoutes.1.multiplexer.registered
        "OPTIONS" "/things" (.user 1) = false
    ∧ ({ level := "debug", message := "API route installed.",
         pattern := "/things", method := "OPTIONS" } : RouteLog)
        ∈ serverWithOptionsRoute.installRoutes.2 := by
  decide

/-! ## Wait: lemmas on schedules -/

theorem run_nil (s : WaitState) : run [] s = s := rfl

theorem run_cons (e : Event) (es : List Event) (s : WaitState) :
    run (e :: es) s = run es (next e s) := rfl

theorem run_append (es fs : List Event) (s : WaitState) :
    run (es ++ fs) s = run fs (run es s) := by
  simp [run, List.foldl_append]

/-- Letting `n` time units pass moves the clock and nothing else. -/
theorem run_ticks (n : Nat) (s : WaitState) :
    run (List.replicate n .tick) s = { s with now := s.now + n } := by
  induction n generalizing s with
  | zero => simp [run]
  | succ n ih =>
    rw [List.replicate_succ, run_cons, ih]
    simp [next, Nat.add_assoc, Nat.add_comm 1 n]

/-- Once `Wait` has returned, no event changes what it returned or what it
sent. -/
theorem returned_next (e : Event) (s : WaitState) (b : Bool) (hpc : s.pc = .returned b) :
    (next e s).pc = .returned b ∧ (next e s).abortSent = s.abortSent := by
  cases e <;> simp [next, Wait.step, hpc]

theorem returned_run (es : List Event) (s : WaitState) (b : Bool) (hpc : s.pc = .returned b) :
    (run es s).pc = .returned b ∧ (run es s).abortSent = s.abortSent := by
  induction es generalizing s with
  | nil => exact ⟨hpc, rfl⟩
  | cons e es ih =>
    rw [run_cons]
    obtain ⟨h1, h2⟩ := returned_next e s b hpc
    obtain ⟨h3, h4⟩ := ih (next e s) h1
    exact ⟨h3, h4.trans h2⟩

theorem sentAtMostOnce_next (e : Event) (s : WaitState) (h : sentAtMostOnce s) :
    sentAtMostOnce (next e s) := by
  rcases h with h | ⟨hpc, hsent⟩
  · cases e with
    | tick => exact Or.inl h
    | sendOk b => exact Or.inl h
    | recvAbort => exact Or.inl h
    | wait pickOk =>
      simp only [next, Wait.step]
      split
      · split
        · exact Or.inl h
        · split
          · exact Or.inl h
          · exact Or.inl h
        · exact Or.inl h
        · exact Or.inl h
      · split
        · exact Or.inr ⟨rfl, by simp [h]⟩
        · exact Or.inl h
        · exact Or.inl h
      · exact Or.inl h
      · exact Or.inl h
  · obtain ⟨h1, h2⟩ := returned_next e s false hpc
    exact Or.inr ⟨h1, h2.trans hsent⟩

theorem sentAtMostOnce_run (es : List Event) (s : WaitState) (h : sentAtMostOnce s) :
    sentAtMostOnce (run es s) := by
  induction es generalizing s with
  | nil => exact h
  | cons e es ih => exact ih (next e s) (sentAtMostOnce_next e s h)

/-- While `Wait` has not returned, it has sent nothing on `abort`. -/
theorem nothing_sent_before_return (w : connectionWaiter) (now : Nat) (timeout : Int)
    (es : List Event) (hpc : ∀ b, (run es (w.Wait now timeout)).pc ≠ .returned b) :
    (run es (w.Wait now timeout)).abortSent = [] := by
  rcases sentAtMostOnce_run es (w.Wait now timeout) (Or.inl rfl) with h | ⟨h, _⟩
  · exact h
  · exact absurd h (hpc false)

/-- A send on `abort` that cannot proceed stays so for as long as no goroutine
receives on `abort`: `Wait` remains in its send. -/
theorem blocked_next (e : Event) (s : WaitState) (hpc : s.pc = .atSend)
    (hb : s.abort.send true = .blocked) (he : e.isRecvAbort = false) :
    (next e s).pc = .atSend ∧ (next e s).abort = s.abort
      ∧ (next e s).abortSent = s.abortSent := by
  cases e with
  | tick => simp [next, hpc]
  | sendOk b => simp [next, hpc]
  | recvAbort => simp [Event.isRecvAbort] at he
  | wait pickOk => simp [next, Wait.step, hpc, hb]

theorem blocked_run (es : List Event) (s : WaitState) (hpc : s.pc = .atSend)
    (hb : s.abort.send true = .blocked) (hes : ∀ e ∈ es, e.isRecvAbort = false) :
    (run es s).pc = .atSend ∧ (run es s).abort = s.abort
      ∧ (run es s).abortSent = s.abortSent := by
  induction es generalizing s with
  | nil => exact ⟨hpc, rfl, rfl⟩
  | cons e es ih =>
    rw [run_cons]
    obtain ⟨h1, h2, h3⟩ := blocked_next e s hpc hb (hes e (List.mem_cons_self e es))
    obtain ⟨h4, h5, h6⟩ := ih (next e s) h1 (by rw [h2]; exact hb)
      (fun e' he' => hes e' (List.mem_cons_of_mem e he'))
    exact ⟨h4, h5.trans h2, h6.trans h3⟩

/-- No event moves the deadline of the timer or turns the clock back. -/
theorem clock_next (e : Event) (s : WaitState) :
    (next e s).deadline = s.deadline ∧ s.now ≤ (next e s).now := by
  cases e with
  | tick => simp [next]
  | sendOk b => simp [next]
  | recvAbort => simp [next]
  | wait pickOk =>
    simp only [next, Wait.step]
    split
    · split
      · exact ⟨rfl, Nat.le_refl _⟩
      · split
        · exact ⟨rfl, Nat.le_refl _⟩
        · exact ⟨rfl, Nat.le_refl _⟩
      · exact ⟨rfl, Nat.le_refl _⟩
      · exact ⟨rfl, Nat.le_refl _⟩
    · split
      · exact ⟨rfl, Nat.le_refl _⟩
      · exact ⟨rfl, Nat.le_refl _⟩
      · exact ⟨rfl, Nat.le_refl _⟩
    · exact ⟨rfl, Nat.le_refl _⟩
    · exact ⟨rfl, Nat.le_refl _⟩

theorem clock_run (es : List Event) (s : WaitState) :
    (run es s).deadline = s.deadline ∧ s.now ≤ (run es s).now := by
  induction es generalizing s with
  | nil => exact ⟨rfl, Nat.le_refl _⟩
  | cons e es ih =>
    rw [run_cons]
    obtain ⟨h1, h2⟩ := clock_next e s
    obtain ⟨h3, h4⟩ := ih (next e s)
    exact ⟨h3.trans h1, Nat.le_trans h2 h4⟩

/-- With no value on `ok` and the timer not ready, an evaluation of the select
leaves `Wait` parked: the state does not change. -/
theorem parked_step (pickOk : Bool) (s : WaitState) (hpc : s.pc = .atSelect)
    (hok : s.ok.recv = none) (hbefore : s.now < s.deadline) :
    Wait.step pickOk s = s := by
  have hnot : ¬ s.deadline ≤ s.now := Nat.not_le.mpr hbefore
  simp [Wait.step, hpc, hok, hnot]

/-- As long as every evaluation of the select finds `ok` empty and the timer
is not ready at the end of the schedule, `Wait` is still at its select. -/
theorem parked_run (es : List Event) (s : WaitState) (hpc : s.pc = .atSelect)
    (hquiet : okEmptyAtSelects es s = true)
    (hbefore : (run es s).now < (run es s).deadline) :
    (run es s).pc = .atSelect := by
  induction es generalizing s with
  | nil => exact hpc
  | cons e es ih =>
    rw [run_cons] at hbefore ⊢
    have hclock := clock_run es (next e s)
    cases e with
    | tick =>
      exact ih (next .tick s) (by simp [next, hpc]) (by simpa [okEmptyAtSelects] using hquiet)
        hbefore
    | sendOk b =>
      exact ih (next (.sendOk b) s) (by simp [next, hpc])
        (by simpa [okEmptyAtSelects] using hquiet) hbefore
    | recvAbort =>
      exact ih (next .recvAbort s) (by simp [next, hpc])
        (by simpa [okEmptyAtSelects] using hquiet) hbefore
    | wait pickOk =>
      simp only [okEmptyAtSelects, Bool.and_eq_true, Option.isNone_iff_eq_none] at hquiet
      have hc := clock_next (.wait pickOk) s
      have hlt : s.now < s.deadline := by
        have h1 := hclock.1
        have h2 := hclock.2
        have h3 := hc.1
        have h4 := hc.2
        omega
      have hsame : next (.wait pickOk) s = s := parked_step pickOk s hpc hquiet.1 hlt
      exact ih (next (.wait pickOk) s) (by rw [hsame]; exact hpc) hquiet.2 hbefore

/-- A send goes through exactly when the channel is open and either a
receiver is parked on it or its buffer has room; it cannot proceed exactly when
the channel is open, no receiver is parked and the buffer is full. -/
theorem send_sent_iff (c : Chan) (v : Bool) :
    ((∃ c', c.send v = .sent c') ↔ (c.closed = false ∧ (0 < c.recvq ∨ c.buf.length < c.cap)))
    ∧ (c.send v = .blocked ↔ (c.closed = false ∧ c.recvq = 0 ∧ c.cap ≤ c.buf.length)) := by
  unfold Chan.send
  by_cases hc : c.closed = true
  · simp [hc]
  · by_cases hr : 0 < c.recvq
    · simp [hc, hr]
      omega
    · by_cases hb : c.buf.length < c.cap
      · simp [hc, hr, hb]
      · simp [hc, hr, hb]
        omega

/-! ## Wait: the two branches of the select -/

/-- C3, at the failing input: `Wait(1)` on a waiter whose channels are unbuffered and
on whose `abort` channel no goroutine receives. After one time unit the timer
is ready and `ok` holds no value; the select enters the timeout case, and from
there, for every schedule in which no goroutine receives on `abort`, `Wait` is
still in the send `w.abort <- true`: it has returned nothing and sent nothing. -/
theorem Wait_timeout_stuck_in_send :
    (run [.tick] (unbufferedWaiter.Wait 0 1)).pc = .atSelect
    ∧ (run [.tick] (unbufferedWaiter.Wait 0 1)).ok.recv = none
    ∧ (run [.tick] (unbufferedWaiter.Wait 0 1)).deadline
        ≤ (run [.tick] (unbufferedWaiter.Wait 0 1)).now
    ∧ ∀ (pickOk : Bool) (es : List Event), (∀ e ∈ es, e.isRecvAbort = false) →
        (run es (Wait.step pickOk (run [.tick] (unbufferedWaiter.Wait 0 1)))).pc = .atSend
        ∧ (run es (Wait.step pickOk (run [.tick] (unbufferedWaiter.Wait 0 1)))).abortSent
            = [] := by
  refine ⟨by decide, by decide, by decide, ?_⟩
  intro pickOk es hes
  have hpc : (Wait.step pickOk (run [.tick] (unbufferedWaiter.Wait 0 1))).pc = .atSend := by
    cases pickOk <;> decide
  have hb : (Wait.step pickOk (run [.tick] (unbufferedWaiter.Wait 0 1))).abort.send true
      = .blocked := by
    cases pickOk <;> decide
  have hs : (Wait.step pickOk (run [.tick] (unbufferedWaiter.Wait 0 1))).abortSent = [] := by
    cases pickOk <;> decide
  obtain ⟨h1, _, h3⟩ := blocked_run es _ hpc hb hes
  exact ⟨h1, h3.trans hs⟩

/-- When the send goes through: let the select of `Wait` be evaluated when the timer is ready
and no value is available on `ok` (state `s`, reached from the call by the
schedule `pre`), and let `Wait` next run in a state `s2` in which it still
stands at `w.abort <- true` and the `abort` channel takes the value. Then `Wait`
returns false, the channel is the one the send leaves, and what `Wait` has sent
on `abort` is exactly one value, `true`, then and after every further
schedule. -/
theorem Wait_timeout_sends_abort_once (w : connectionWaiter) (now : Nat) (timeout : Int)
    (pre mid : List Event) (c1 c2 : Bool) (s s2 : WaitState) (abort' : Chan)
    (hs : s = run pre (w.Wait now timeout))
    (hpc : s.pc = .atSelect) (htime : s.deadline ≤ s.now) (hok : s.ok.recv = none)
    (hs2 : s2 = run mid (Wait.step c1 s))
    (hpc2 : s2.pc = .atSend) (hsend : s2.abort.send true = .sent abort') :
    (Wait.step c1 s).pc = .atSend
    ∧ (Wait.step c2 s2).abort = abort'
    ∧ ∀ es, (run es (Wait.step c2 s2)).pc = .returned false
        ∧ (run es (Wait.step c2 s2)).abortSent = [true] := by
  have hstep1 : (Wait.step c1 s).pc = .atSend := by
    simp [Wait.step, hpc, hok, htime]
  have hreach : s2 = run (pre ++ .wait c1 :: mid) (w.Wait now timeout) := by
    rw [run_append, run_cons, ← hs, hs2]
    rfl
  have hnone : s2.abortSent = [] := by
    rw [hreach]
    apply nothing_sent_before_return
    intro b
    rw [← hreach, hpc2]
    simp
  have hpc3 : (Wait.step c2 s2).pc = .returned false := by
    simp [Wait.step, hpc2, hsend]
  have hsent3 : (Wait.step c2 s2).abortSent = [true] := by
    simp [Wait.step, hpc2, hsend, hnone]
  refine ⟨hstep1, by simp [Wait.step, hpc2, hsend], ?_⟩
  intro es
  obtain ⟨h1, h2⟩ := returned_run es _ false hpc3
  exact ⟨h1, h2.trans hsent3⟩

/-- With an `abort` channel made with room for one value, `Wait(1)` called at
instant 0 and scheduled after one time unit returns false and has sent
exactly `true` on `abort`. -/
theorem Wait_timeout_sends_abort_once_witness :
    (run [.tick, .wait true, .wait true] (bufferedWaiter.Wait 0 1)).pc = .returned false
    ∧ (run [.tick, .wait true, .wait true] (bufferedWaiter.Wait 0 1)).abortSent = [true] :=
  (Wait_timeout_sends_abort_once bufferedWaiter 0 1 [.tick] [] true true
    (run [.tick] (bufferedWaiter.Wait 0 1))
    (Wait.step true (run [.tick] (bufferedWaiter.Wait 0 1)))
    { cap := 1, buf := [true] }
    rfl (by decide) (by decide) (by decide) rfl (by decide) (by decide)).2.2 []

/-- C4, counterexample: `Wait(0)` on a waiter whose background attempt has
already delivered `true` on `ok`. The outcome is available before the timeout
elapses, the timer is ready as soon as the call is made, the select may take
the timeout case, and `Wait` then returns false after sending `true` on
`abort`. -/
theorem Wait_zero_timeout_drops_outcome :
    (resolvedWaiter.Wait 0 0).ok.recv = some (true, { cap := 1 })
    ∧ (run [.wait false, .wait false] (resolvedWaiter.Wait 0 0)).pc = .returned false
    ∧ (run [.wait false, .wait false] (resolvedWaiter.Wait 0 0)).abortSent = [true] := by
  decide

/-- C4, amended: take any schedule `pre` from the call of `Wait(timeout)` along
which every evaluation of the select found no value on `ok`, and at whose end
the outcome `b` is available on `ok` while the timer is not yet ready. Then the
timeout is positive, `Wait` is still parked at its select at the end of `pre`,
its next evaluation of the select returns exactly `b` whichever case Go would
prefer, the `abort` channel is left as it was, and after every further
schedule `Wait` has returned `b` and has sent no value on `abort`. -/
theorem Wait_returns_outcome (w : connectionWaiter) (now : Nat) (timeout : Int)
    (pre : List Event) (b : Bool) (ok' : Chan)
    (hquiet : okEmptyAtSelects pre (w.Wait now timeout) = true)
    (hbefore : (run pre (w.Wait now timeout)).now < (run pre (w.Wait now timeout)).deadline)
    (hok : (run pre (w.Wait now timeout)).ok.recv = some (b, ok')) :
    0 < timeout
    ∧ (run pre (w.Wait now timeout)).pc = .atSelect
    ∧ ∀ (pickOk : Bool) (es : List Event),
        (Wait.step pickOk (run pre (w.Wait now timeout))).pc = .returned b
        ∧ (Wait.step pickOk (run pre (w.Wait now timeout))).abort
            = (run pre (w.Wait now timeout)).abort
        ∧ (run es (Wait.step pickOk (run pre (w.Wait now timeout)))).pc = .returned b
        ∧ (run es (Wait.step pickOk (run pre (w.Wait now timeout)))).abortSent = [] := by
  have hclock := clock_run pre (w.Wait now timeout)
  have hpos : 0 < timeout := by
    have h1 : (w.Wait now timeout).deadline = now + timeout.toNat := rfl
    have h2 : (w.Wait now timeout).now = now := rfl
    rw [hclock.1, h1] at hbefore
    have h3 := hclock.2
    rw [h2] at h3
    have h4 : 0 < timeout.toNat := by omega
    exact Int.lt_toNat.mp h4
  have hpc : (run pre (w.Wait now timeout)).pc = .atSelect :=
    parked_run pre (w.Wait now timeout) rfl hquiet hbefore
  refine ⟨hpos, hpc, ?_⟩
  intro pickOk es
  have hnot : ¬ (run pre (w.Wait now timeout)).deadline ≤ (run pre (w.Wait now timeout)).now :=
    Nat.not_le.mpr hbefore
  have hnone : (run pre (w.Wait now timeout)).abortSent = [] := by
    apply nothing_sent_before_return
    intro b'
    rw [hpc]
    simp
  have hpc1 : (Wait.step pickOk (run pre (w.Wait now timeout))).pc = .returned b := by
    simp [Wait.step, hpc, hok, hnot]
  have hsent1 : (Wait.step pickOk (run pre (w.Wait now timeout))).abortSent = [] := by
    simp [Wait.step, hpc, hok, hnot, hnone]
  obtain ⟨h1, h2⟩ := returned_run es _ b hpc1
  exact ⟨hpc1, by simp [Wait.step, hpc, hok, hnot], h1, h2.trans hsent1⟩

/-- C4, witness: with unbuffered channels and a timeout of five time units,
`Wait` is scheduled once and parks, a time unit passes, the background attempt
offers `true` on `ok`, another time unit passes; `Wait` is then still at its
select, returns true when scheduled, and has sent nothing on `abort`, also
after a goroutine later receives on it. -/
theorem Wait_returns_outcome_witness :
    (run [.wait true, .tick, .sendOk true, .tick] (unbufferedWaiter.Wait 0 5)).pc = .atSelect
    ∧ (run [.tick, .recvAbort] (Wait.step false
        (run [.wait true, .tick, .sendOk true, .tick] (unbufferedWaiter.Wait 0 5)))).pc
        = .returned true
    ∧ (run [.tick, .recvAbort] (Wait.step false
        (run [.wait true, .tick, .sendOk true, .tick] (unbufferedWaiter.Wait 0 5)))).abortSent
        = [] :=
  ⟨(Wait_returns_outcome unbufferedWaiter 0 5 [.wait true, .tick, .sendOk true, .tick]
      true { cap := 0 } (by decide) (by decide) (by decide)).2.1,
   ((Wait_returns_outcome unbufferedWaiter 0 5 [.wait true, .tick, .sendOk true, .tick]
      true { cap := 0 } (by decide) (by decide) (by decide)).2.2 false
      [.tick, .recvAbort]).2.2⟩

/-- C7, at the failing input: `Wait(timeout)` on a waiter whose channels are
unbuffered and on whose `abort` channel no goroutine receives. Once `timeout`
time units have passed the select enters the timeout case; from there `Wait`
stays in the send `w.abort <- true` under every schedule without a receive on
`abort`, and in particular it has not returned `n` time units after the
timeout, for every `n`. -/
theorem Wait_blocks_past_timeout (timeout : Nat) (pickOk : Bool) (n : Nat) (es : List Event) :
    (run (es.filter (fun e => !e.isRecvAbort))
        (run (List.replicate timeout .tick ++ [.wait pickOk])
          (unbufferedWaiter.Wait 0 timeout))).pc = .atSend
    ∧ (run (List.replicate n .tick)
        (run (List.replicate timeout .tick ++ [.wait pickOk])
          (unbufferedWaiter.Wait 0 timeout))).pc = .atSend
    ∧ (run (List.replicate n .tick)
        (run (List.replicate timeout .tick ++ [.wait pickOk])
          (unbufferedWaiter.Wait 0 timeout))).now = timeout + n
    ∧ (run (List.replicate n .tick)
        (run (List.replicate timeout .tick ++ [.wait pickOk])
          (unbufferedWaiter.Wait 0 timeout))).deadline = timeout := by
  have hstate : run (List.replicate timeout .tick ++ [.wait pickOk])
      (unbufferedWaiter.Wait 0 timeout)
      = { ok := { cap := 0 }, abort := { cap := 0 }, now := timeout, deadline := timeout,
          pc := .atSend, abortSent := [] } := by
    rw [run_append, run_ticks, run_cons, run_nil]
    simp [next, Wait.step, connectionWaiter.Wait, unbufferedWaiter, Chan.recv]
  rw [hstate]
  refine ⟨?_, ?_, ?_, ?_⟩
  · refine (blocked_run (es.filter (fun e => !e.isRecvAbort))
      { ok := { cap := 0 }, abort := { cap := 0 }, now := timeout, deadline := timeout,
        pc := .atSend, abortSent := [] } rfl rfl ?_).1
    intro e he
    have := (List.mem_filter.mp he).2
    simpa using this
  · rw [run_ticks]
  · rw [run_ticks]
  · rw [run_ticks]

end Bahamut
